import Mathlib

/-!
Shallow embedding of the admission gate (rate limiting and proxy rotation)
of the `YouTubeDownloadManager` class in `src/unnamed/part_000`.

The JavaScript state consists of:
* a module-level `Map` `downloadAttempts` from video identifiers to arrays
  of millisecond timestamps (insertion-ordered, as a JS `Map` is);
* the instance field `currentProxyIndex`, an integer cursor;
* the constants `MAX_ATTEMPTS = 5` and `TIME_WINDOW = 60000`.

We model the `Map` as an insertion-ordered association list with the exact
JS `Map.set` semantics: updating an existing key keeps its position,
setting a fresh key appends at the end.  Timestamps are `Int` so that the
subtraction `now - time` matches JS number subtraction.
-/

/-- `MAX_ATTEMPTS` constant from `src/unnamed/part_000` line 29. -/
def MAX_ATTEMPTS : Nat := 5

/-- `TIME_WINDOW` constant (ms) from `src/unnamed/part_000` line 30. -/
def TIME_WINDOW : Int := 60000

/-- The attempt map: identifier to ordered list of timestamps. -/
abbrev AttemptMap := List (String × List Int)

/-- JS `Map.get`: the value stored at `k`, if any. -/
def mapGet (m : AttemptMap) (k : String) : Option (List Int) :=
  match m with
  | [] => none
  | (k1, v) :: rest => if k1 = k then some v else mapGet rest k

/-- JS `Map.set`: update an existing key in place, else append at the end. -/
def mapSet (m : AttemptMap) (k : String) (v : List Int) : AttemptMap :=
  match m with
  | [] => [(k, v)]
  | (k1, v1) :: rest =>
      if k1 = k then (k, v) :: rest else (k1, v1) :: mapSet rest k v

/-- Process-wide mutable state of the gate: the attempt map together with
the proxy-rotation cursor (`this.currentProxyIndex`). -/
structure GateState where
  downloadAttempts : AttemptMap
  currentProxyIndex : Nat
deriving Repr, DecidableEq

/-- State at process start: empty map, cursor `0` (constructor, line 34). -/
def initialState : GateState := ⟨[], 0⟩

/-- The in-window test used by `isRateLimited` (line 166):
`time => now - time < TIME_WINDOW`. -/
def inWindow (now time : Int) : Bool := now - time < TIME_WINDOW

/-- `isRateLimited(videoId)` (lines 163-169): read the stored attempts
(`|| []` when absent), keep only those with `now - time < TIME_WINDOW`,
write the filtered list back, and report whether at least `MAX_ATTEMPTS`
remain.  `now` stands for `Date.now()` at the moment of the call. -/
def isRateLimited (now : Int) (σ : GateState) (videoId : String) :
    Bool × GateState :=
  let attempts := (mapGet σ.downloadAttempts videoId).getD []
  let recentAttempts := attempts.filter (fun time => inWindow now time)
  ( decide (MAX_ATTEMPTS ≤ recentAttempts.length),
    { σ with downloadAttempts := mapSet σ.downloadAttempts videoId recentAttempts } )

/-- `recordAttempt(videoId)` (lines 171-175): append `Date.now()` to the
stored attempts (`|| []` when absent) and store the result back. -/
def recordAttempt (now : Int) (σ : GateState) (videoId : String) : GateState :=
  let attempts := (mapGet σ.downloadAttempts videoId).getD []
  { σ with downloadAttempts := mapSet σ.downloadAttempts videoId (attempts ++ [now]) }

/-- The three configured proxy values `PROXY_1`, `PROXY_2`, `PROXY_3`
(`process.env` entries; `none` models an unset variable). -/
structure ProxyEnv where
  PROXY_1 : Option String
  PROXY_2 : Option String
  PROXY_3 : Option String
deriving Repr, DecidableEq

/-- `[PROXY_1, PROXY_2, PROXY_3].filter(Boolean)` (lines 38-42): drop unset
variables and empty strings (both falsy in JS). -/
def buildPool (env : ProxyEnv) : List String :=
  [env.PROXY_1, env.PROXY_2, env.PROXY_3].filterMap
    (fun o => match o with
      | none => none
      | some s => if s = "" then none else some s)

/-- `getNextProxy()` (lines 37-47): if the filtered pool is empty return
`null` (state untouched); otherwise advance the cursor by one modulo the
pool size and return the entry at the new cursor. -/
def getNextProxy (env : ProxyEnv) (σ : GateState) : Option String × GateState :=
  let proxies := buildPool env
  if h : proxies.length = 0 then (none, σ)
  else
    let i := (σ.currentProxyIndex + 1) % proxies.length
    ( some (proxies.get ⟨i, Nat.mod_lt _ (Nat.pos_of_ne_zero h)⟩),
      { σ with currentProxyIndex := i } )

/-- `n` consecutive calls to `getNextProxy`: the list of returned values in
order, together with the final state. -/
def runProxyCalls (env : ProxyEnv) (σ : GateState) : Nat → List (Option String) × GateState
  | 0 => ([], σ)
  | n + 1 =>
      let r := getNextProxy env σ
      let rest := runProxyCalls env r.2 n
      (r.1 :: rest.1, rest.2)

/-- `n` consecutive calls to `recordAttempt` for the same identifier, all
at the same instant `now`. -/
def recordN (now : Int) (σ : GateState) (videoId : String) : Nat → GateState
  | 0 => σ
  | n + 1 => recordN now (recordAttempt now σ videoId) videoId n

/-! ### Helper lemmas about the JS `Map` model -/

theorem mapGet_mapSet_self (m : AttemptMap) (k : String) (v : List Int) :
    mapGet (mapSet m k v) k = some v := by
  induction m with
  | nil => simp [mapGet, mapSet]
  | cons hd tl ih =>
      by_cases h : hd.1 = k
      · simp [mapGet, mapSet, h]
      · simpa [mapGet, mapSet, h] using ih

theorem mapGet_mapSet_ne (m : AttemptMap) (k : String) (v : List Int)
    (k1 : String) (h : k1 ≠ k) :
    mapGet (mapSet m k v) k1 = mapGet m k1 := by
  induction m with
  | nil => simp [mapGet, mapSet, Ne.symm h]
  | cons hd tl ih =>
      by_cases hh : hd.1 = k
      · simp [mapGet, mapSet, hh, Ne.symm h]
      · by_cases hk1 : hd.1 = k1 <;> simp [mapGet, mapSet, hh, hk1, h, ih]

theorem mapSet_absent (m : AttemptMap) (k : String) (v : List Int)
    (h : mapGet m k = none) : mapSet m k v = m ++ [(k, v)] := by
  induction m with
  | nil => simp [mapSet]
  | cons hd tl ih =>
      by_cases hh : hd.1 = k
      · simp [mapGet, hh] at h
      · simp [mapGet, hh] at h
        simp [mapSet, hh, ih h]

/-! ### Helper lemmas about `isRateLimited` and `recordAttempt` -/

theorem isRateLimited_fst_eq (now : Int) (σ : GateState) (videoId : String) :
    (isRateLimited now σ videoId).1 =
      decide (MAX_ATTEMPTS ≤
        (((mapGet σ.downloadAttempts videoId).getD []).filter
          (fun time => inWindow now time)).length) := rfl

theorem isRateLimited_map_eq (now : Int) (σ : GateState) (videoId : String) :
    ((isRateLimited now σ videoId).2).downloadAttempts =
      mapSet σ.downloadAttempts videoId
        (((mapGet σ.downloadAttempts videoId).getD []).filter
          (fun time => inWindow now time)) := rfl

theorem isRateLimited_cursor_eq (now : Int) (σ : GateState) (videoId : String) :
    ((isRateLimited now σ videoId).2).currentProxyIndex = σ.currentProxyIndex := rfl

theorem isRateLimited_lookup_self (now : Int) (σ : GateState) (videoId : String) :
    mapGet ((isRateLimited now σ videoId).2).downloadAttempts videoId =
      some (((mapGet σ.downloadAttempts videoId).getD []).filter
        (fun time => inWindow now time)) := by
  rw [isRateLimited_map_eq]
  exact mapGet_mapSet_self _ _ _

theorem recordAttempt_lookup_self (now : Int) (σ : GateState) (videoId : String) :
    mapGet (recordAttempt now σ videoId).downloadAttempts videoId =
      some (((mapGet σ.downloadAttempts videoId).getD []) ++ [now]) := by
  unfold recordAttempt
  exact mapGet_mapSet_self _ _ _

/-! ### Claim theorems about the rate limiter -/

/-- C1: for every identifier and every process state, `isRateLimited`
returns `true` exactly when at least `MAX_ATTEMPTS = 5` of the recorded
attempt timestamps for that identifier are within the `60000` ms window at
the time of the check (absent identifiers contribute the empty history and
so get `false`). -/
theorem isRateLimited_iff_five_in_window (now : Int) (σ : GateState) (videoId : String) :
    (isRateLimited now σ videoId).1 = true ↔
      MAX_ATTEMPTS ≤
        ((mapGet σ.downloadAttempts videoId).getD []).countP
          (fun time => inWindow now time) := by
  rw [isRateLimited_fst_eq, List.countP_eq_length_filter]
  exact decide_eq_true_iff

/-- C5: every `isRateLimited` call compacts the checked identifier's
history: afterwards the stored sequence is exactly the previous one
filtered to the in-window entries, in their original order. -/
theorem isRateLimited_compacts_history (now : Int) (σ : GateState) (videoId : String) :
    mapGet ((isRateLimited now σ videoId).2).downloadAttempts videoId =
      some (((mapGet σ.downloadAttempts videoId).getD []).filter
        (fun time => inWindow now time)) :=
  isRateLimited_lookup_self now σ videoId

/-- The concrete scenario state of spec §8 item 8: attempts for `"abc123"`
recorded at simulated times 0, 10000, 20000, 30000, 40000. -/
def scenarioState : GateState :=
  recordAttempt 40000
    (recordAttempt 30000
      (recordAttempt 20000
        (recordAttempt 10000
          (recordAttempt 0 initialState "abc123") "abc123") "abc123") "abc123")
    "abc123"

/-- C2: attempts older than the window never count.  Whenever fewer than
`MAX_ATTEMPTS` of the stored timestamps are in-window at check time, the
check returns `false`; in the concrete scenario (attempts at 0, 10000,
20000, 30000, 40000) a check at 45000 returns `true` and a check at 71000
returns `false`. -/
theorem stale_attempts_never_count :
    (∀ (now : Int) (σ : GateState) (videoId : String),
        ((mapGet σ.downloadAttempts videoId).getD []).countP
            (fun time => inWindow now time) < MAX_ATTEMPTS →
        (isRateLimited now σ videoId).1 = false)
    ∧ (isRateLimited 45000 scenarioState "abc123").1 = true
    ∧ (isRateLimited 71000 scenarioState "abc123").1 = false := by
  refine ⟨?_, by decide, by decide⟩
  intro now σ videoId hcount
  rw [List.countP_eq_length_filter] at hcount
  rw [isRateLimited_fst_eq]
  exact decide_eq_false (Nat.not_le.mpr hcount)

/-- Witness for C2 at the concrete scenario state. -/
theorem stale_attempts_never_count_witness :
    (isRateLimited 71000 scenarioState "abc123").1 = false :=
  stale_attempts_never_count.1 71000 scenarioState "abc123" (by decide)

/-- C4: `recordAttempt` appends the current timestamp to the stored
sequence (creating it when absent) without pruning anything, and is
strictly additive: five recorded attempts inside the window make the
subsequent check `true`, four make it `false`. -/
theorem recordAttempt_appends_without_pruning :
    (∀ (now : Int) (σ : GateState) (videoId : String),
        mapGet (recordAttempt now σ videoId).downloadAttempts videoId =
          some (((mapGet σ.downloadAttempts videoId).getD []) ++ [now]))
    ∧ (isRateLimited 100 (recordN 0 initialState "fresh" 5) "fresh").1 = true
    ∧ (isRateLimited 100 (recordN 0 initialState "fresh" 4) "fresh").1 = false :=
  ⟨fun now σ videoId => recordAttempt_lookup_self now σ videoId, by decide, by decide⟩

/-- C9: the window boundary is strict.  A stored timestamp survives the
check exactly when `now - t < TIME_WINDOW`; concretely an attempt whose
age is exactly 60000 ms is discarded and not counted. -/
theorem window_boundary_strict (now t : Int) (σ : GateState) (videoId : String) :
    (t ∈ (mapGet ((isRateLimited now σ videoId).2).downloadAttempts videoId).getD []
        ↔ t ∈ (mapGet σ.downloadAttempts videoId).getD [] ∧ now - t < TIME_WINDOW)
    ∧ isRateLimited 60000 ⟨[("v", [0])], 0⟩ "v" = (false, ⟨[("v", [])], 0⟩) := by
  refine ⟨?_, by decide⟩
  rw [isRateLimited_lookup_self]
  simp [List.mem_filter, inWindow]

/-- C10: checking an identifier with no recorded history returns `false`
but inserts that identifier with the empty sequence into the attempt map,
leaving all other identifiers and the rotation cursor unchanged. -/
theorem isRateLimited_absent_inserts (now : Int) (σ : GateState) (videoId : String)
    (h : mapGet σ.downloadAttempts videoId = none) :
    (isRateLimited now σ videoId).1 = false
    ∧ ((isRateLimited now σ videoId).2).downloadAttempts =
        σ.downloadAttempts ++ [(videoId, [])]
    ∧ ((isRateLimited now σ videoId).2).currentProxyIndex = σ.currentProxyIndex
    ∧ ∀ k, k ≠ videoId →
        mapGet ((isRateLimited now σ videoId).2).downloadAttempts k =
          mapGet σ.downloadAttempts k := by
  refine ⟨?_, ?_, rfl, ?_⟩
  · rw [isRateLimited_fst_eq, h]
    rfl
  · rw [isRateLimited_map_eq, h]
    simpa using mapSet_absent σ.downloadAttempts videoId [] h
  · intro k hk
    rw [isRateLimited_map_eq]
    exact mapGet_mapSet_ne _ _ _ _ hk

/-- Witness for C10 at a concrete state with one unrelated identifier. -/
theorem isRateLimited_absent_inserts_witness :
    (isRateLimited 10 ⟨[("other", [1])], 3⟩ "fresh").1 = false
    ∧ ((isRateLimited 10 ⟨[("other", [1])], 3⟩ "fresh").2).downloadAttempts =
        [("other", [1])] ++ [("fresh", [])] :=
  ⟨(isRateLimited_absent_inserts 10 ⟨[("other", [1])], 3⟩ "fresh" (by decide)).1,
   (isRateLimited_absent_inserts 10 ⟨[("other", [1])], 3⟩ "fresh" (by decide)).2.1⟩

/-! ### Helper lemmas about `getNextProxy` -/

theorem runProxyCalls_succ (env : ProxyEnv) (σ : GateState) (n : Nat) :
    runProxyCalls env σ (n + 1) =
      ((getNextProxy env σ).1 :: (runProxyCalls env (getNextProxy env σ).2 n).1,
       (runProxyCalls env (getNextProxy env σ).2 n).2) := rfl

theorem getNextProxy_fst_of_ne (env : ProxyEnv) (σ : GateState)
    (h : (buildPool env).length ≠ 0) :
    (getNextProxy env σ).1 =
      (buildPool env).get? ((σ.currentProxyIndex + 1) % (buildPool env).length) := by
  rw [List.get?_eq_get (Nat.mod_lt _ (Nat.pos_of_ne_zero h))]
  simp [getNextProxy, h]

theorem getNextProxy_cursor_of_ne (env : ProxyEnv) (σ : GateState)
    (h : (buildPool env).length ≠ 0) :
    (getNextProxy env σ).2.currentProxyIndex =
      (σ.currentProxyIndex + 1) % (buildPool env).length := by
  simp [getNextProxy, h]

theorem runProxyCalls_fst_eq (env : ProxyEnv) (h : (buildPool env).length ≠ 0) :
    ∀ (n : Nat) (σ : GateState),
      (runProxyCalls env σ n).1 =
        (List.range n).map (fun j =>
          (buildPool env).get?
            ((σ.currentProxyIndex + 1 + j) % (buildPool env).length)) := by
  intro n
  induction n with
  | zero => intro σ; simp [runProxyCalls]
  | succ n ih =>
      intro σ
      rw [runProxyCalls_succ]
      have hmod : ∀ j : Nat,
          ((σ.currentProxyIndex + 1) % (buildPool env).length + 1 + j) %
              (buildPool env).length =
            (σ.currentProxyIndex + 1 + (j + 1)) % (buildPool env).length := by
        intro j
        rw [Nat.add_assoc, Nat.mod_add_mod]
        congr 1
        omega
      have hrest := ih (getNextProxy env σ).2
      rw [getNextProxy_cursor_of_ne env σ h] at hrest
      simp only [hmod] at hrest
      rw [List.range_succ_eq_map]
      simp only [List.map_cons, List.map_map, Function.comp]
      rw [getNextProxy_fst_of_ne env σ h]
      simp [hrest]

theorem runProxyCalls_pool_perm (env : ProxyEnv) (σ : GateState)
    (h : (buildPool env).length ≠ 0) :
    ((runProxyCalls env σ (buildPool env).length).1).Perm
      ((buildPool env).map some) := by
  rw [runProxyCalls_fst_eq env h]
  have hrot : (List.range (buildPool env).length).map (fun j =>
      (buildPool env).get? ((σ.currentProxyIndex + 1 + j) % (buildPool env).length)) =
      ((buildPool env).rotate (σ.currentProxyIndex + 1)).map some := by
    apply List.ext_get?_iff.mpr
    intro n
    by_cases hn : n < (buildPool env).length
    · rw [List.get?_map, List.get?_map, List.get?_range hn,
        List.get?_rotate (by simpa using hn)]
      simp only [Option.map_some']
      have hlt : (n + (σ.currentProxyIndex + 1)) % (buildPool env).length <
          (buildPool env).length := Nat.mod_lt _ (Nat.pos_of_ne_zero h)
      have harg : (σ.currentProxyIndex + 1 + n) % (buildPool env).length =
          (n + (σ.currentProxyIndex + 1)) % (buildPool env).length := by
        congr 1
        omega
      rw [harg, List.get?_eq_get hlt]
      rfl
    · rw [List.get?_eq_none.mpr, List.get?_eq_none.mpr]
      · simpa [List.length_rotate] using Nat.le_of_not_lt hn
      · simpa using Nat.le_of_not_lt hn
  rw [hrot]
  exact (List.rotate_perm _ _).map some

theorem runProxyCalls_invariant (env : ProxyEnv) (h : (buildPool env).length ≠ 0) :
    ∀ (n : Nat) (σ : GateState), σ.currentProxyIndex < (buildPool env).length →
      ((runProxyCalls env σ n).2.currentProxyIndex < (buildPool env).length
       ∧ ∀ o ∈ (runProxyCalls env σ n).1, ∃ p ∈ buildPool env, o = some p) := by
  intro n
  induction n with
  | zero => intro σ hσ; exact ⟨hσ, by simp [runProxyCalls]⟩
  | succ n ih =>
      intro σ hσ
      have hσ1 : (getNextProxy env σ).2.currentProxyIndex < (buildPool env).length := by
        rw [getNextProxy_cursor_of_ne env σ h]
        exact Nat.mod_lt _ (Nat.pos_of_ne_zero h)
      obtain ⟨ha, hb⟩ := ih (getNextProxy env σ).2 hσ1
      rw [runProxyCalls_succ]
      refine ⟨ha, ?_⟩
      intro o ho
      rcases List.mem_cons.mp ho with hhd | htl
      · subst hhd
        have hi : (σ.currentProxyIndex + 1) % (buildPool env).length <
            (buildPool env).length := Nat.mod_lt _ (Nat.pos_of_ne_zero h)
        refine ⟨(buildPool env).get ⟨_, hi⟩, List.get_mem _ _ _, ?_⟩
        rw [getNextProxy_fst_of_ne env σ h, List.get?_eq_get hi]
      · exact hb o htl

/-- The concrete proxy configuration of spec §8 item 7:
`PROXY_1 = "proxyA"`, `PROXY_2 = "proxyB"`, `PROXY_3` unset. -/
def scenarioEnv : ProxyEnv := ⟨some "proxyA", some "proxyB", none⟩

/-- C3: `getNextProxy` is a round-robin selector.  With a non-empty pool
and a valid cursor `c`, the first call returns the entry at index
`(c + 1) mod K`, and `K` consecutive calls return a permutation of the
pool (each entry exactly once before any repeats); with pool
`["proxyA", "proxyB"]` and cursor 0 the calls return `"proxyB"`,
`"proxyA"`, `"proxyB"`, `"proxyA"`, ... -/
theorem getNextProxy_round_robin (env : ProxyEnv) (σ : GateState)
    (h : (buildPool env).length ≠ 0)
    (hσ : σ.currentProxyIndex < (buildPool env).length) :
    (getNextProxy env σ).1 =
        (buildPool env).get? ((σ.currentProxyIndex + 1) % (buildPool env).length)
    ∧ ((runProxyCalls env σ (buildPool env).length).1).Perm
        ((buildPool env).map some)
    ∧ (runProxyCalls scenarioEnv initialState 4).1 =
        [some "proxyB", some "proxyA", some "proxyB", some "proxyA"] :=
  ⟨getNextProxy_fst_of_ne env σ h, runProxyCalls_pool_perm env σ h, by decide⟩

/-- Witness for C3 at the two-proxy scenario configuration. -/
theorem getNextProxy_round_robin_witness :
    ((runProxyCalls scenarioEnv initialState (buildPool scenarioEnv).length).1).Perm
      ((buildPool scenarioEnv).map some) :=
  (getNextProxy_round_robin scenarioEnv initialState (by decide) (by decide)).2.1

/-- C6: starting from the initial cursor 0, after any number of
`getNextProxy` calls on a non-empty pool the cursor is a valid pool index,
and every returned value is an actual pool element. -/
theorem cursor_always_valid_index (env : ProxyEnv) (n : Nat)
    (h : buildPool env ≠ []) :
    ((runProxyCalls env initialState n).2.currentProxyIndex < (buildPool env).length
     ∧ ∀ o ∈ (runProxyCalls env initialState n).1, ∃ p ∈ buildPool env, o = some p) := by
  have hK : (buildPool env).length ≠ 0 := fun hh => h (List.length_eq_zero.mp hh)
  exact runProxyCalls_invariant env hK n initialState (Nat.pos_of_ne_zero hK)

/-- Witness for C6 after three calls on the two-proxy configuration. -/
theorem cursor_always_valid_index_witness :
    (runProxyCalls scenarioEnv initialState 3).2.currentProxyIndex <
      (buildPool scenarioEnv).length :=
  (cursor_always_valid_index scenarioEnv 3 (by decide)).1

/-- C7: with an empty configured pool (all proxy values unset or empty
after filtering), `getNextProxy` returns `null` for every cursor state,
never throws, and leaves the state (cursor included) unchanged. -/
theorem getNextProxy_empty_pool (env : ProxyEnv) (σ : GateState)
    (h : buildPool env = []) : getNextProxy env σ = (none, σ) := by
  simp [getNextProxy, h]

/-- Witness for C7 with one unset and one empty-string proxy variable. -/
theorem getNextProxy_empty_pool_witness :
    getNextProxy ⟨none, some "", none⟩ ⟨[], 7⟩ = (none, ⟨[], 7⟩) :=
  getNextProxy_empty_pool ⟨none, some "", none⟩ ⟨[], 7⟩ (by decide)

/-- C8: the gate never raises an error; each operation is total and
signals only through a boolean (`isRateLimited`), a write
(`recordAttempt`), or a nullable value (`getNextProxy`), and an absent
identifier behaves as zero prior attempts. -/
theorem gate_signals_never_error (now : Int) (σ : GateState) (videoId : String)
    (env : ProxyEnv) :
    (mapGet σ.downloadAttempts videoId = none → (isRateLimited now σ videoId).1 = false)
    ∧ ((getNextProxy env σ).1 = none ∨
        ∃ p ∈ buildPool env, (getNextProxy env σ).1 = some p)
    ∧ (mapGet (recordAttempt now σ videoId).downloadAttempts videoId).isSome = true := by
  refine ⟨?_, ?_, ?_⟩
  · intro h
    rw [isRateLimited_fst_eq, h]
    rfl
  · by_cases h : (buildPool env).length = 0
    · exact Or.inl (by simp [getNextProxy, h])
    · refine Or.inr ?_
      have hi : (σ.currentProxyIndex + 1) % (buildPool env).length <
          (buildPool env).length := Nat.mod_lt _ (Nat.pos_of_ne_zero h)
      refine ⟨(buildPool env).get ⟨_, hi⟩, List.get_mem _ _ _, ?_⟩
      rw [getNextProxy_fst_of_ne env σ h, List.get?_eq_get hi]
  · rw [recordAttempt_lookup_self]
    rfl

/-- Witness for C8 at the initial state. -/
theorem gate_signals_never_error_witness :
    (isRateLimited 0 initialState "x").1 = false :=
  (gate_signals_never_error 0 initialState "x" ⟨none, none, none⟩).1 rfl
